import Mathlib

/-
  Verification of the message-delivery and protocol-dispatch core of
  textileio/mill-go against its natural-language specification.

  The embedding below follows the Go sources:
    - src/net/service/handlers.go  (protocol dispatcher and handlers)
    - src/core/block_outbox.go     (reliable outbox)
  External collaborators (protobuf codec, libp2p crypto, the SQL-backed
  datastore, the IPFS block store) are modelled as oracle functions
  supplied in service records; the handler bodies mirror the Go control
  flow statement by statement.
-/

namespace Textile

/-- Raw byte strings ([]byte in Go) are modelled as Lean strings. -/
abbrev Bytes := String

/-- A peer identifier in its Pretty() (base58 string) form. -/
abbrev PeerId := String

/-- Abstract token standing for a parsed libp2p public key. -/
abbrev PubKey := Nat

/-- Abstract token standing for a parsed libp2p private key. -/
abbrev PrivKey := Nat

/-- Result of a Go call returning (bool, error). -/
inductive GoBool where
  | ok (b : Bool)
  | err (e : String)
deriving DecidableEq, Repr

/-- pb.Message_MessageType.  The named cases are the seven types with
handlers in HandlerForMsgType; a protobuf enum field may also carry any
other integer code, kept in UNKNOWN. -/
inductive MsgType where
  | PING
  | THREAD_BLOCK
  | OFFLINE_ACK
  | OFFLINE_RELAY
  | BLOCK
  | STORE
  | ERROR
  | UNKNOWN (code : Nat)
deriving DecidableEq, Repr

/-- pb.Message: a typed message with an optional Any payload (none models a
nil Payload pointer; the Any.Value bytes are the string). -/
structure Message where
  messageType : MsgType
  payload : Option Bytes
deriving DecidableEq, Repr

/-- pb.Envelope: the signed outer wrapper (Message, Pubkey bytes, Signature). -/
structure Envelope where
  message : Message
  pubkey : Bytes
  signature : Bytes
deriving DecidableEq, Repr

/-- Whether HandlerForMsgType returns a non-nil handler for a type: the
switch in handlers.go names the seven known types and returns nil in the
default case. -/
def HandlerForMsgTypeDefined : MsgType → Bool
  | .UNKNOWN _ => false
  | _ => true

/-- Go handler return shape (*pb.Message, error): optional reply, optional
error message. -/
abbrev HandlerRet := Option Message × Option String

/-! ### handlePing -/

/-- handlePing: returns the received message unchanged with no error.  Note
the source performs no nil-payload check in this handler. -/
def handlePing (_pid : PeerId) (pmes : Message) : HandlerRet :=
  (some pmes, none)

/-! ### Thread block processing (handleThreadBlock) -/

/-- pb.ThreadBlock_Type.  A protobuf enum field may carry values outside
the four declared cases; such values are kept in UNKNOWN and the Go switch
over them has no default case. -/
inductive ThreadBlockType where
  | INVITE
  | PHOTO
  | COMMENT
  | LIKE
  | UNKNOWN (code : Nat)
deriving DecidableEq, Repr

/-- pb.ThreadBlock (the deserialization of SignedThreadBlock.Data). -/
structure ThreadBlock where
  type : ThreadBlockType
  target : String
  targetKey : Bytes
deriving DecidableEq, Repr

/-- pb.SignedThreadBlock. -/
structure SignedThreadBlock where
  id : String
  threadId : String
  threadName : String
  issuerPubKey : Bytes
  data : Bytes
  signature : Bytes
deriving DecidableEq, Repr

/-- A locally tracked thread: id, name and its secret key (the key whose
public half verifies the thread's blocks).  Modelled from the spec:
Thread is "a locally tracked conversation keyed by identity" providing
Verify and HandleBlock; its Go definition is outside src/. -/
structure Thread where
  id : String
  name : String
  sk : PrivKey
deriving DecidableEq, Repr

/-- repo.Peer: a thread membership record. -/
structure Peer where
  row : String
  id : String
  threadId : String
  pubKey : Bytes
deriving DecidableEq, Repr

/-- The mutable thread/peer state the thread-block handler acts on. -/
structure ThreadsState where
  threads : List Thread
  peers : List Peer
deriving DecidableEq, Repr

/-- Modelled from the spec: the thread registry lookup
"Lookup(threadId) -> Thread|absent" behind s.getThread (its Go body is
outside src/). -/
def getThread (st : ThreadsState) (tid : String) : Option Thread :=
  st.threads.find? (fun t => t.id == tid)

/-- Oracles consumed by handleThreadBlock: protobuf codecs, libp2p crypto
and the collaborators called by the handler.  verifyWith k d g models
"public half of key k verifies signature g over data d" and is used both
for the decrypted invite key and for a thread's own key. -/
structure ThreadSvc where
  self : PeerId
  unmarshalSigned : Bytes → Except String SignedThreadBlock
  unmarshalBlock : Bytes → Except String ThreadBlock
  decrypt : Bytes → Except String Bytes
  unmarshalPrivKey : Bytes → Except String PrivKey
  verifyWith : PrivKey → Bytes → Bytes → GoBool
  newThread : String → PrivKey → Except String Thread
  unmarshalPubKey : Bytes → Except String PubKey
  pubKeyBytes : PubKey → Except String Bytes
  idFromPubKey : PubKey → Except String PeerId
  freshRow : String
  peersAddErr : Peer → Option String
  handleBlockErr : Thread → String → Option String

/-- Outcome of handleThreadBlock.  nilPanic marks the nil-pointer
dereference that occurs when the final thrd.HandleBlock(signed.Id) call is
reached with thrd == nil (HandleBlock reads thread state, so a nil
receiver faults). -/
inductive TBOutcome where
  | ret (reply : Option Message) (err : Option String)
  | nilPanic
deriving DecidableEq, Repr

/-- handleThreadBlock, mirroring the Go switch over block.Type.  In the
source every non-erroring branch falls through to
"return nil, thrd.HandleBlock(signed.Id)"; that final call is inlined at
the end of each branch here.  s.addThread is modelled by the newThread
oracle plus consing the returned thread onto the registry, and
Peers().Add by the peersAddErr oracle plus consing the record. -/
def handleThreadBlock (s : ThreadSvc) (st : ThreadsState) (pmes : Message) :
    TBOutcome × ThreadsState :=
  match pmes.payload with
  | none => (.ret none (some "payload is nil"), st)
  | some pl =>
    match s.unmarshalSigned pl with
    | .error e => (.ret none (some e), st)
    | .ok signed =>
      match s.unmarshalBlock signed.data with
      | .error e => (.ret none (some e), st)
      | .ok block =>
        let thrd := getThread st signed.threadId
        match block.type with
        | .INVITE =>
          match thrd with
          | some _ => (.ret none (some "thread exists"), st)
          | none =>
            if block.target ≠ s.self then
              (.ret none (some "invalid invite target"), st)
            else
              match s.decrypt block.targetKey with
              | .error e => (.ret none (some e), st)
              | .ok skb =>
                match s.unmarshalPrivKey skb with
                | .error e => (.ret none (some e), st)
                | .ok sk =>
                  match s.verifyWith sk signed.data signed.signature with
                  | .err _ => (.ret none (some "bad signature"), st)
                  | .ok false => (.ret none (some "bad signature"), st)
                  | .ok true =>
                    match s.newThread signed.threadName sk with
                    | .error e => (.ret none (some e), st)
                    | .ok t =>
                      let st1 : ThreadsState := { st with threads := t :: st.threads }
                      match s.unmarshalPubKey signed.issuerPubKey with
                      | .error e => (.ret none (some e), st1)
                      | .ok ppk =>
                        match s.pubKeyBytes ppk with
                        | .error e => (.ret none (some e), st1)
                        | .ok ppkb =>
                          match s.idFromPubKey ppk with
                          | .error e => (.ret none (some e), st1)
                          | .ok peerId =>
                            let newPeer : Peer :=
                              { row := s.freshRow, id := peerId,
                                threadId := t.id, pubKey := ppkb }
                            match s.peersAddErr newPeer with
                            | some e => (.ret none (some e), st1)
                            | none =>
                              let st2 : ThreadsState :=
                                { st1 with peers := newPeer :: st1.peers }
                              (.ret none (s.handleBlockErr t signed.id), st2)
        | .PHOTO =>
          match thrd with
          | none => (.ret none (some "thread not found"), st)
          | some t =>
            match s.verifyWith t.sk signed.data signed.signature with
            | .err _ => (.ret none (some "bad signature"), st)
            | .ok false => (.ret none (some "bad signature"), st)
            | .ok true => (.ret none (s.handleBlockErr t signed.id), st)
        | .COMMENT => (.ret none (some "TODO"), st)
        | .LIKE => (.ret none (some "TODO"), st)
        | .UNKNOWN _ =>
          match thrd with
          | none => (.nilPanic, st)
          | some t => (.ret none (s.handleBlockErr t signed.id), st)

/-! ### handleOfflineAck -/

/-- A repo.Pointer as used by the ack handler: keyed by a peer id, holding
the peer authorized to retract it (nil CancelId modelled as none). -/
structure Pointer where
  key : PeerId
  cancelId : Option PeerId
deriving DecidableEq, Repr

/-- Modelled from the spec: the pointer store lookup
"Get(peerId) -> Pointer|error" (the SQL layer is outside src/). -/
def pointersGet (ps : List Pointer) (pid : PeerId) : Except String Pointer :=
  match ps.find? (fun p => p.key == pid) with
  | some p => .ok p
  | none => .error "pointer not found"

/-- Modelled from the spec: the pointer store "Delete(peerId) -> error",
as removal of the entries keyed by pid (modelled as always succeeding). -/
def pointersDelete (ps : List Pointer) (pid : PeerId) : List Pointer :=
  ps.filter (fun p => p.key != pid)

/-- Oracle for peer.IDB58Decode on the payload bytes (result unused by the
handler, only its error is checked). -/
structure AckSvc where
  decodePeerId : Bytes → Except String PeerId

/-- handleOfflineAck: decode the payload as a peer id, look up the pointer
keyed by the sender, require the pointer's CancelId to equal the sender,
then delete the pointer. -/
def handleOfflineAck (s : AckSvc) (ps : List Pointer) (pid : PeerId) (pmes : Message) :
    HandlerRet × List Pointer :=
  match pmes.payload with
  | none => ((none, some "payload is nil"), ps)
  | some pl =>
    match s.decodePeerId pl with
    | .error e => ((none, some e), ps)
    | .ok _ =>
      match pointersGet ps pid with
      | .error e => ((none, some e), ps)
      | .ok pointer =>
        match pointer.cancelId with
        | none => ((none, some "peer is not authorized to delete pointer"), ps)
        | some c =>
          if c = pid then ((none, none), pointersDelete ps pid)
          else ((none, some "peer is not authorized to delete pointer"), ps)

/-! ### handleOfflineRelay -/

/-- Oracles consumed by handleOfflineRelay: decryption with this node's
private key, protobuf codecs and libp2p key operations. -/
structure RelaySvc where
  decrypt : Bytes → Except String Bytes
  unmarshalEnvelope : Bytes → Except String Envelope
  marshalMessage : Message → Except String Bytes
  unmarshalPubKey : Bytes → Except String PubKey
  verify : PubKey → Bytes → Bytes → GoBool
  idFromPubKey : PubKey → Except String PeerId

/-- handleOfflineRelay.  The dispatch argument models the recursive call
through the handler returned by HandlerForMsgType for the inner message's
type.  The signature-check branch mirrors the source exactly:
"if err != nil || !valid { return nil, err }", so a verification that
returns (false, nil) exits with a nil reply AND a nil error. -/
def handleOfflineRelay (s : RelaySvc)
    (dispatch : PeerId → Message → HandlerRet)
    (_pid : PeerId) (pmes : Message) : HandlerRet :=
  match pmes.payload with
  | none => (none, some "payload is nil")
  | some pl =>
    match s.decrypt pl with
    | .error e => (none, some e)
    | .ok plaintext =>
      match s.unmarshalEnvelope plaintext with
      | .error e => (none, some e)
      | .ok env =>
        match s.marshalMessage env.message with
        | .error e => (none, some e)
        | .ok ser =>
          match s.unmarshalPubKey env.pubkey with
          | .error e => (none, some e)
          | .ok pubkey =>
            match s.verify pubkey ser env.signature with
            | .err e => (none, some e)
            | .ok false => (none, none)
            | .ok true =>
              match s.idFromPubKey pubkey with
              | .error e => (none, some e)
              | .ok senderId =>
                if HandlerForMsgTypeDefined env.message.messageType then
                  match dispatch senderId env.message with
                  | (_, some e) => (none, some e)
                  | (_, none) => (none, none)
                else (none, none)

/-! ### handleBlock -/

/-- pb.Block: a content id string and raw block bytes. -/
structure PbBlock where
  cid : String
  rawData : Bytes
deriving DecidableEq, Repr

/-- Oracles consumed by handleBlock: protobuf codec, cid.Decode (decoded
cids are abstract tokens), blocks.NewBlockWithCid and Blocks.AddBlock
(only their error results matter here). -/
structure BlockSvc where
  unmarshalPbBlock : Bytes → Except String PbBlock
  cidDecode : String → Except String Nat
  newBlockErr : Bytes → Nat → Option String
  addBlockErr : Bytes → Nat → Option String

/-- handleBlock: reconstruct the content-addressed block and add it to the
local block store. -/
def handleBlock (s : BlockSvc) (_pid : PeerId) (pmes : Message) : HandlerRet :=
  match pmes.payload with
  | none => (none, some "payload is nil")
  | some pl =>
    match s.unmarshalPbBlock pl with
    | .error e => (none, some e)
    | .ok pbblock =>
      match s.cidDecode pbblock.cid with
      | .error e => (none, some e)
      | .ok c =>
        match s.newBlockErr pbblock.rawData c with
        | some e => (none, some e)
        | none =>
          match s.addBlockErr pbblock.rawData c with
          | some e => (none, some e)
          | none => (none, none)

/-! ### handleStore -/

/-- A decoded content identifier, abstract. -/
abbrev Cid := Nat

/-- Oracles consumed by handleStore: protobuf codecs for CidList,
cid.Decode, decoded.String(), and Blockstore.Has (which returns
(bool, error)). -/
structure StoreSvc where
  unmarshalCidList : Bytes → Except String (List String)
  cidDecode : String → Except String Cid
  cidString : Cid → String
  hasBlock : Cid → GoBool
  marshalCidList : List String → Except String Bytes

/-- The errorResponse closure in handleStore: an ERROR message whose
payload carries the error text. -/
def errorResponse (e : String) : Message :=
  { messageType := .ERROR, payload := some e }

/-- The need-accumulation loop of handleStore: for each input id in
order, skip it if cid.Decode fails; otherwise append decoded.String()
when Has errors or reports false. -/
def storeNeed (s : StoreSvc) : List String → List String
  | [] => []
  | idStr :: rest =>
    match s.cidDecode idStr with
    | .error _ => storeNeed s rest
    | .ok decoded =>
      match s.hasBlock decoded with
      | .err _ => s.cidString decoded :: storeNeed s rest
      | .ok true => storeNeed s rest
      | .ok false => s.cidString decoded :: storeNeed s rest

/-- handleStore: reply with a STORE message listing the input cids not
present locally; a payload that fails to unmarshal produces an
Error-typed reply (together with the error). -/
def handleStore (s : StoreSvc) (_pid : PeerId) (pmes : Message) : HandlerRet :=
  match pmes.payload with
  | none => (none, some "payload is nil")
  | some pl =>
    match s.unmarshalCidList pl with
    | .error e => (some (errorResponse "could not unmarshall message"), some e)
    | .ok cList =>
      let need := storeNeed s cList
      match s.marshalCidList need with
      | .error e => (some (errorResponse "error marshalling response"), some e)
      | .ok out => (some { messageType := .STORE, payload := some out }, none)

/-- Modelled from the spec: "given a list of content identifiers, return
the subset not already present locally ... malformed individual ids are
skipped" — an order-stable filter of the input list. -/
def specStoreReply (decodable : String → Bool) (present : String → Bool)
    (cids : List String) : List String :=
  cids.filter (fun c => decodable c && !(present c))

/-- Whether an id string parses as a cid. -/
def cidDecodable (s : StoreSvc) (c : String) : Bool :=
  match s.cidDecode c with
  | .ok _ => true
  | .error _ => false

/-- Whether an id string parses and its block is present in the local
store (a Has error counts as not present, as in the source). -/
def cidPresent (s : StoreSvc) (c : String) : Bool :=
  match s.cidDecode c with
  | .ok d =>
    match s.hasBlock d with
    | .ok true => true
    | .ok false => false
    | .err _ => false
  | .error _ => false

/-- Refinement of the store-negotiation loop: on canonically encoded ids
(decoded.String() round-trips), the computed need list is exactly the
spec-side order-stable filter of the input. -/
theorem storeNeed_spec (s : StoreSvc) :
    ∀ (cids : List String),
    (∀ c ∈ cids, (match s.cidDecode c with
      | .ok d => s.cidString d == c
      | .error _ => true) = true) →
    storeNeed s cids = specStoreReply (cidDecodable s) (cidPresent s) cids := by
  intro cids
  induction cids with
  | nil => intro h; rfl
  | cons c cs ih =>
    intro h
    have hc := h c (List.mem_cons_self c cs)
    have hcs := ih (fun y hy => h y (List.mem_cons_of_mem c hy))
    unfold specStoreReply at hcs ⊢
    rw [List.filter_cons]
    cases hd : s.cidDecode c with
    | error e =>
      have hdec : cidDecodable s c = false := by simp [cidDecodable, hd]
      rw [hdec]
      simp only [Bool.false_and, if_false]
      show storeNeed s (c :: cs) = _
      rw [storeNeed, hd]
      exact hcs
    | ok d =>
      rw [hd] at hc
      simp only [beq_iff_eq] at hc
      have hdec : cidDecodable s c = true := by simp [cidDecodable, hd]
      cases hb : s.hasBlock d with
      | ok b =>
        cases b with
        | true =>
          have hpres : cidPresent s c = true := by simp [cidPresent, hd, hb]
          simp [storeNeed, hd, hb, hdec, hpres, hcs]
        | false =>
          have hpres : cidPresent s c = false := by simp [cidPresent, hd, hb]
          simp [storeNeed, hd, hb, hdec, hpres, hc, hcs]
      | err e =>
        have hpres : cidPresent s c = false := by simp [cidPresent, hd, hb]
        simp [storeNeed, hd, hb, hdec, hpres, hc, hcs]

/-! ### handleError -/

/-- handleError: decode the error notice; no reply, no further effect. -/
def handleError (unmarshalErrorMsg : Bytes → Except String String)
    (_pid : PeerId) (pmes : Message) : HandlerRet :=
  match pmes.payload with
  | none => (none, some "payload is nil")
  | some pl =>
    match unmarshalErrorMsg pl with
    | .error e => (none, some e)
    | .ok _ => (none, none)

/-! ### Reliable outbox (src/core/block_outbox.go) -/

/-- blockFlushGroupSize: the page size of a flush batch. -/
def blockFlushGroupSize : Nat := 16

/-- pb.BlockMessage: a queued outbound message.  Ids are ksuid strings,
time-ordered and unique; they are modelled as naturals carrying the same
total order.  The envelope is an abstract token. -/
structure BlockMessage where
  id : Nat
  peer : PeerId
  env : Nat
deriving DecidableEq, Repr

/-- A contact record as read by the outbox: the known relay inbox
addresses of a peer. -/
structure Contact where
  inboxes : List String
deriving DecidableEq, Repr

/-- Oracles consumed by the outbox: service availability and online flag,
the transport connection check, direct send, the peer store lookup and the
relay-outbox handoff (only their error results matter). -/
structure OutboxSvc where
  serviceAvailable : Bool
  online : Bool
  swarmConnected : PeerId → Except String Bool
  sendMessageErr : PeerId → Nat → Option String
  peersGet : PeerId → Option Contact
  addForInboxErr : PeerId → Nat → List String → Option String

/-- Outbox state: the durable queue (kept sorted by id ascending, the
order the SQL layer returns) and the record of relay handoffs made via
cafeOutbox.AddForInbox. -/
structure OutboxState where
  queue : List BlockMessage
  cafe : List (PeerId × Nat × List String)
deriving DecidableEq, Repr

/-- Modelled from the spec: BlockMessages().List(offset, limit) — a page
of pending messages ordered by id, those with id greater than offset (an
empty offset, none, starts from the smallest id), limited in size (the
SQL layer is outside src/). -/
def listMessages (queue : List BlockMessage) (offset : Option Nat) (limit : Nat) :
    List BlockMessage :=
  match offset with
  | none => queue.take limit
  | some o => (queue.filter (fun m => decide (o < m.id))).take limit

/-- The outbox handle function: try a direct send when the service is
online and the transport reports a live connection; on unreachability or
send failure, fall back to the peer's relay inboxes when any are known;
return the error only when the connection check or the relay handoff
errors.  Note the source returns nil (success) when the peer is
unreachable and no inboxes are known. -/
def outboxHandle (s : OutboxSvc) (st : OutboxState) (peerId : PeerId) (msg : BlockMessage) :
    Option String × OutboxState :=
  let sendableOrErr : Except String Bool :=
    if s.online then
      match s.swarmConnected peerId with
      | .error e => .error e
      | .ok connected => .ok connected
    else .ok false
  match sendableOrErr with
  | .error e => (some e, st)
  | .ok sendable =>
    let sendErr := if sendable then s.sendMessageErr peerId msg.env else none
    if sendable && sendErr.isNone then (none, st)
    else
      match s.peersGet peerId with
      | some contact =>
        if contact.inboxes.length > 0 then
          match s.addForInboxErr peerId msg.env contact.inboxes with
          | some e => (some e, st)
          | none => (none, { st with cafe := st.cafe ++ [(peerId, msg.env, contact.inboxes)] })
        else (none, st)
      | none => (none, st)

/-- One page of batch: handle every message of the page, collecting the
ids whose handle call returned no error (the source runs one goroutine
per destination group and the groups share no state; the per-message
results are order-independent, so the page is processed here in queue
order). -/
def processPage (s : OutboxSvc) : OutboxState → List BlockMessage → List Nat × OutboxState
  | st, [] => ([], st)
  | st, msg :: rest =>
    match outboxHandle s st msg.peer msg with
    | (some _, st1) => processPage s st1 rest
    | (none, st1) =>
      let pr := processPage s st1 rest
      (msg.id :: pr.1, pr.2)

/-- batch: process the page, load the next page starting after the last
id of this page (from the queue before deletion, as in the source),
delete the handled messages, then recurse; an empty page stops.  The
source recurses without fuel; here fuel bounds the recursion depth and
the termination theorem shows a fuel linear in the queue size always
suffices. -/
def batch (s : OutboxSvc) : Nat → OutboxState → List BlockMessage → Option OutboxState
  | 0, _, _ => none
  | _ + 1, st, [] => some st
  | fuel + 1, st, m :: rest =>
    let msgs := m :: rest
    let pr := processPage s st msgs
    let offset := (msgs.getLast (List.cons_ne_nil m rest)).id
    let next := listMessages pr.2.queue (some offset) blockFlushGroupSize
    let st2 : OutboxState :=
      { pr.2 with queue := pr.2.queue.filter (fun q => decide (q.id ∉ pr.1)) }
    batch s fuel st2 next

/-- Flush: a no-op when the service accessor yields nil, otherwise batch
starting from the first page (smallest ids).  The source holds an
exclusive mutex for the whole call; the lock itself has no effect on the
sequential semantics modelled here. -/
def Flush (s : OutboxSvc) (fuel : Nat) (st : OutboxState) : Option OutboxState :=
  if s.serviceAvailable then
    batch s fuel st (listMessages st.queue none blockFlushGroupSize)
  else some st

/-- The queue is sorted strictly by id (ids are unique and time-ordered). -/
def IdSorted (q : List BlockMessage) : Prop :=
  q.Pairwise (fun a b => a.id < b.id)

/-- Fuel measure for one batch invocation: zero for an empty page, else
one plus the number of queued messages beyond the page's last id. -/
def pageMeasure (queue : List BlockMessage) (msgs : List BlockMessage) : Nat :=
  match msgs.getLast? with
  | none => 0
  | some l => 1 + (queue.filter (fun m => decide (l.id < m.id))).length

/-! ### Outbox lemmas -/

theorem outboxHandle_queue_eq (s : OutboxSvc) (st : OutboxState) (p : PeerId) (m : BlockMessage) :
    (outboxHandle s st p m).2.queue = st.queue := by
  unfold outboxHandle
  repeat' split
  all_goals simp
  all_goals split
  all_goals rfl

theorem processPage_queue_eq (s : OutboxSvc) :
    ∀ (msgs : List BlockMessage) (st : OutboxState),
    (processPage s st msgs).2.queue = st.queue := by
  intro msgs
  induction msgs with
  | nil => intro st; rfl
  | cons m rest ih =>
    intro st
    have hq := outboxHandle_queue_eq s st m.peer m
    unfold processPage
    rcases h : outboxHandle s st m.peer m with ⟨err, st1⟩
    rw [h] at hq
    simp only [] at hq
    cases err with
    | none => simp [ih st1, hq]
    | some e => simp [ih st1, hq]

theorem processPage_toDelete_mem (s : OutboxSvc) :
    ∀ (msgs : List BlockMessage) (st : OutboxState) (i : Nat),
    i ∈ (processPage s st msgs).1 → ∃ m, m ∈ msgs ∧ m.id = i := by
  intro msgs
  induction msgs with
  | nil => intro st i h; simp [processPage] at h
  | cons m rest ih =>
    intro st i h
    unfold processPage at h
    rcases hh : outboxHandle s st m.peer m with ⟨err, st1⟩
    rw [hh] at h
    cases err with
    | none =>
      simp only [List.mem_cons] at h
      rcases h with rfl | h2
      · exact ⟨m, List.mem_cons_self m rest, rfl⟩
      · rcases ih st1 i h2 with ⟨mm, hmem, hid⟩
        exact ⟨mm, List.mem_cons_of_mem m hmem, hid⟩
    | some e =>
      rcases ih st1 i h with ⟨mm, hmem, hid⟩
      exact ⟨mm, List.mem_cons_of_mem m hmem, hid⟩

theorem id_le_getLast?_of_sorted :
    ∀ {l : List BlockMessage} {x lst : BlockMessage},
    IdSorted l → x ∈ l → l.getLast? = some lst → x.id ≤ lst.id := by
  intro l
  induction l with
  | nil => intro x lst _ hx _; cases hx
  | cons a t ih =>
    intro x lst hs hx hlast
    cases t with
    | nil =>
      simp only [List.getLast?_singleton, Option.some.injEq] at hlast
      simp only [List.mem_singleton] at hx
      subst hlast; subst hx; exact Nat.le_refl _
    | cons b t2 =>
      rw [List.getLast?_cons_cons] at hlast
      have hpair := List.pairwise_cons.mp hs
      rcases List.mem_cons.mp hx with rfl | hx2
      · have hmem : lst ∈ b :: t2 := by
          rcases List.mem_getLast?_eq_getLast (l := b :: t2) (x := lst) hlast with ⟨hne, hl⟩
          rw [hl]; exact List.getLast_mem hne
        exact Nat.le_of_lt (hpair.1 lst hmem)
      · exact ih hpair.2 hx2 hlast

theorem batch_cons_step (s : OutboxSvc) (fuel : Nat) (st : OutboxState)
    (m : BlockMessage) (rest : List BlockMessage) :
    batch s (fuel + 1) st (m :: rest) =
      batch s fuel
        { (processPage s st (m :: rest)).2 with
          queue := (processPage s st (m :: rest)).2.queue.filter
            (fun x => decide (x.id ∉ (processPage s st (m :: rest)).1)) }
        (listMessages (processPage s st (m :: rest)).2.queue
          (some (((m :: rest).getLast (List.cons_ne_nil m rest)).id)) blockFlushGroupSize) :=
  rfl

theorem batch_total (s : OutboxSvc) :
    ∀ (n : Nat) (st : OutboxState) (msgs : List BlockMessage),
    IdSorted st.queue → List.Sublist msgs st.queue → pageMeasure st.queue msgs ≤ n →
    (batch s (n + 1) st msgs).isSome := by
  intro n
  induction n with
  | zero =>
    intro st msgs hs hsub hm
    cases msgs with
    | nil => simp [batch]
    | cons m rest =>
      exfalso
      unfold pageMeasure at hm
      rw [List.getLast?_eq_getLast_of_ne_nil (List.cons_ne_nil m rest)] at hm
      simp at hm
  | succ k ih =>
    intro st msgs hs hsub hm
    cases msgs with
    | nil => simp [batch]
    | cons m rest =>
      rw [batch_cons_step]
      have hq1 := processPage_queue_eq s (m :: rest) st
      rw [hq1]
      have hms : IdSorted (m :: rest) := List.Pairwise.sublist hsub hs
      have hlast2 := List.getLast?_eq_getLast_of_ne_nil (List.cons_ne_nil m rest)
      have hub : ∀ x ∈ (m :: rest), x.id ≤ ((m :: rest).getLast (List.cons_ne_nil m rest)).id :=
        fun x hx => id_le_getLast?_of_sorted hms hx hlast2
      have htd : ∀ i ∈ (processPage s st (m :: rest)).1,
          i ≤ ((m :: rest).getLast (List.cons_ne_nil m rest)).id := by
        intro i hi
        rcases processPage_toDelete_mem s (m :: rest) st i hi with ⟨mm, hmem, hid⟩
        rw [← hid]; exact hub mm hmem
      apply ih
      · exact List.Pairwise.sublist (List.filter_sublist _) hs
      · -- the next page survives the deletion filter
        show List.Sublist
          (listMessages st.queue
            (some (((m :: rest).getLast (List.cons_ne_nil m rest)).id)) blockFlushGroupSize)
          (st.queue.filter (fun x => decide (x.id ∉ (processPage s st (m :: rest)).1)))
        have hnq : List.Sublist
            (listMessages st.queue
              (some (((m :: rest).getLast (List.cons_ne_nil m rest)).id)) blockFlushGroupSize)
            st.queue := by
          unfold listMessages
          exact (List.take_sublist _ _).trans (List.filter_sublist _)
        have hgt : ∀ x ∈ listMessages st.queue
            (some (((m :: rest).getLast (List.cons_ne_nil m rest)).id)) blockFlushGroupSize,
            ((m :: rest).getLast (List.cons_ne_nil m rest)).id < x.id := by
          intro x hx
          unfold listMessages at hx
          have := List.mem_filter.mp (List.mem_of_mem_take hx)
          simpa using this.2
        have hkeep : ∀ x ∈ listMessages st.queue
            (some (((m :: rest).getLast (List.cons_ne_nil m rest)).id)) blockFlushGroupSize,
            (fun y => decide (y.id ∉ (processPage s st (m :: rest)).1)) x = true := by
          intro x hx
          simp only [decide_eq_true_eq]
          intro hmem
          exact absurd (htd x.id hmem) (Nat.not_le_of_lt (hgt x hx))
        have heq : listMessages st.queue
            (some (((m :: rest).getLast (List.cons_ne_nil m rest)).id)) blockFlushGroupSize
            = (listMessages st.queue
                (some (((m :: rest).getLast (List.cons_ne_nil m rest)).id))
                blockFlushGroupSize).filter
                (fun x => decide (x.id ∉ (processPage s st (m :: rest)).1)) :=
          (List.filter_eq_self.mpr hkeep).symm
        rw [heq]
        exact hnq.filter _
      · -- the measure strictly decreases
        show pageMeasure
          (st.queue.filter (fun x => decide (x.id ∉ (processPage s st (m :: rest)).1)))
          (listMessages st.queue
            (some (((m :: rest).getLast (List.cons_ne_nil m rest)).id)) blockFlushGroupSize) ≤ k
        unfold pageMeasure at hm
        rw [hlast2] at hm
        simp only [] at hm
        rcases hnn : listMessages st.queue
            (some (((m :: rest).getLast (List.cons_ne_nil m rest)).id)) blockFlushGroupSize
          with _ | ⟨b, nrest⟩
        · simp [pageMeasure]
        · unfold pageMeasure
          rw [List.getLast?_eq_getLast_of_ne_nil (List.cons_ne_nil b nrest)]
          simp only []
          have hmem' : (b :: nrest).getLast (List.cons_ne_nil b nrest) ∈
              listMessages st.queue
                (some (((m :: rest).getLast (List.cons_ne_nil m rest)).id))
                blockFlushGroupSize := by
            rw [hnn]; exact List.getLast_mem _
          have hgt : ∀ x ∈ listMessages st.queue
              (some (((m :: rest).getLast (List.cons_ne_nil m rest)).id)) blockFlushGroupSize,
              ((m :: rest).getLast (List.cons_ne_nil m rest)).id < x.id := by
            intro x hx
            unfold listMessages at hx
            have := List.mem_filter.mp (List.mem_of_mem_take hx)
            simpa using this.2
          have hnq : List.Sublist
              (listMessages st.queue
                (some (((m :: rest).getLast (List.cons_ne_nil m rest)).id)) blockFlushGroupSize)
              st.queue := by
            unfold listMessages
            exact (List.take_sublist _ _).trans (List.filter_sublist _)
          have hlt : ((m :: rest).getLast (List.cons_ne_nil m rest)).id <
              ((b :: nrest).getLast (List.cons_ne_nil b nrest)).id := hgt _ hmem'
          have hA : ((st.queue.filter (fun y => decide (y.id ∉ (processPage s st (m :: rest)).1))).filter
                (fun x => decide (((b :: nrest).getLast (List.cons_ne_nil b nrest)).id < x.id))).length ≤
              (st.queue.filter
                (fun x => decide (((b :: nrest).getLast (List.cons_ne_nil b nrest)).id < x.id))).length :=
            ((List.filter_sublist _).filter _).length_le
          have hBsub : List.Sublist
              (st.queue.filter
                (fun x => decide (((b :: nrest).getLast (List.cons_ne_nil b nrest)).id < x.id)))
              (st.queue.filter
                (fun x => decide (((m :: rest).getLast (List.cons_ne_nil m rest)).id < x.id))) := by
            apply List.monotone_filter_right
            intro a ha
            simp only [decide_eq_true_eq] at ha
            simp only [decide_eq_true_eq]
            omega
          have hBmem : (b :: nrest).getLast (List.cons_ne_nil b nrest) ∈
              st.queue.filter
                (fun x => decide (((m :: rest).getLast (List.cons_ne_nil m rest)).id < x.id)) := by
            apply List.mem_filter.mpr
            refine ⟨hnq.subset hmem', ?_⟩
            simpa using hlt
          have hBnot : (b :: nrest).getLast (List.cons_ne_nil b nrest) ∉
              st.queue.filter
                (fun x => decide (((b :: nrest).getLast (List.cons_ne_nil b nrest)).id < x.id)) := by
            intro hc
            have := List.mem_filter.mp hc
            simp at this
          have hB : (st.queue.filter
                (fun x => decide (((b :: nrest).getLast (List.cons_ne_nil b nrest)).id < x.id))).length <
              (st.queue.filter
                (fun x => decide (((m :: rest).getLast (List.cons_ne_nil m rest)).id < x.id))).length := by
            refine Nat.lt_of_le_of_ne hBsub.length_le ?_
            intro he
            exact hBnot ((hBsub.eq_of_length he) ▸ hBmem)
          omega

theorem Flush_total (s : OutboxSvc) (st : OutboxState) (hs : IdSorted st.queue) :
    (Flush s (st.queue.length + 2) st).isSome := by
  unfold Flush
  split
  · have hsub : List.Sublist (listMessages st.queue none blockFlushGroupSize) st.queue := by
      unfold listMessages
      exact List.take_sublist _ _
    have hm : pageMeasure st.queue (listMessages st.queue none blockFlushGroupSize) ≤
        st.queue.length + 1 := by
      unfold pageMeasure
      cases h : (listMessages st.queue none blockFlushGroupSize).getLast? with
      | none => simp
      | some l =>
        simp only []
        have := List.length_filter_le (fun m => decide (l.id < m.id)) st.queue
        omega
    exact batch_total s (st.queue.length + 1) st
      (listMessages st.queue none blockFlushGroupSize) hs hsub hm
  · simp

/-- In a sorted queue split as l ++ r, the messages with id beyond the last
id of a nonempty prefix l are exactly r. -/
theorem filter_gt_getLast_append (l r : List BlockMessage) (hs : IdSorted (l ++ r))
    (hne : l ≠ []) :
    (l ++ r).filter (fun x => decide ((l.getLast hne).id < x.id)) = r := by
  rw [List.filter_append]
  have hparts := List.pairwise_append.mp hs
  have h1 : l.filter (fun x => decide ((l.getLast hne).id < x.id)) = [] := by
    apply List.filter_eq_nil_iff.mpr
    intro a ha
    have : a.id ≤ (l.getLast hne).id :=
      id_le_getLast?_of_sorted hparts.1 ha (List.getLast?_eq_getLast_of_ne_nil hne)
    simpa using Nat.not_lt_of_le this
  have h2 : r.filter (fun x => decide ((l.getLast hne).id < x.id)) = r := by
    apply List.filter_eq_self.mpr
    intro a ha
    have : (l.getLast hne).id < a.id := hparts.2.2 _ (List.getLast_mem hne) a ha
    simpa using this
  rw [h1, h2, List.nil_append]

/-- In a sorted queue split as l ++ r, deleting the ids of l leaves
exactly r. -/
theorem filter_not_mem_ids_append (l r : List BlockMessage) (hs : IdSorted (l ++ r)) :
    (l ++ r).filter (fun x => decide (x.id ∉ l.map (fun m => m.id))) = r := by
  rw [List.filter_append]
  have hparts := List.pairwise_append.mp hs
  have h1 : l.filter (fun x => decide (x.id ∉ l.map (fun m => m.id))) = [] := by
    apply List.filter_eq_nil_iff.mpr
    intro a ha
    simp only [decide_eq_true_eq, not_not]
    exact List.mem_map_of_mem _ ha
  have h2 : r.filter (fun x => decide (x.id ∉ l.map (fun m => m.id))) = r := by
    apply List.filter_eq_self.mpr
    intro a ha
    simp only [decide_eq_true_eq]
    intro hcon
    rcases List.mem_map.mp hcon with ⟨x, hx, hid⟩
    have : x.id < a.id := hparts.2.2 x hx a ha
    omega
  rw [h1, h2, List.nil_append]

/-- handle on an unreachable peer (service offline) with no known contact
or an empty inbox list: success, no relay handoff, state untouched. -/
theorem outboxHandle_unreachable_no_inbox (s : OutboxSvc) (st : OutboxState)
    (p : PeerId) (m : BlockMessage) (hoff : s.online = false)
    (hnc : s.peersGet p = none ∨ ∃ c, s.peersGet p = some c ∧ c.inboxes = []) :
    outboxHandle s st p m = (none, st) := by
  unfold outboxHandle
  rw [hoff]
  rcases hnc with h | ⟨c, hc, hinb⟩
  · rw [h]; simp
  · rw [hc]; simp [hinb]

theorem processPage_unreachable (s : OutboxSvc) (hoff : s.online = false)
    (hnc : ∀ p, s.peersGet p = none) :
    ∀ (msgs : List BlockMessage) (st : OutboxState),
    processPage s st msgs = (msgs.map (fun m => m.id), st) := by
  intro msgs
  induction msgs with
  | nil => intro st; rfl
  | cons m rest ih =>
    intro st
    unfold processPage
    rw [outboxHandle_unreachable_no_inbox s st m.peer m hoff (Or.inl (hnc m.peer))]
    simp [ih st]

theorem batch_unreachable (s : OutboxSvc) (hoff : s.online = false)
    (hnc : ∀ p, s.peersGet p = none) :
    ∀ (n : Nat) (q : List BlockMessage) (cafe : List (PeerId × Nat × List String)),
    IdSorted q → q.length ≤ n →
    batch s (n + 1) { queue := q, cafe := cafe } (q.take blockFlushGroupSize) =
      some { queue := [], cafe := cafe } := by
  intro n
  induction n with
  | zero =>
    intro q cafe hs hl
    have hq : q = [] := List.length_eq_zero.mp (Nat.le_zero.mp hl)
    subst hq
    simp [batch]
  | succ k ih =>
    intro q cafe hs hl
    rcases q with _ | ⟨a, t⟩
    · simp [batch]
    · rw [show blockFlushGroupSize = 15 + 1 from rfl, List.take_succ_cons]
      rw [batch_cons_step]
      rw [processPage_unreachable s hoff hnc]
      simp only []
      have hsplit : a :: t.take 15 = (a :: t).take (15 + 1) := by
        rw [List.take_succ_cons]
      have happ : (a :: t.take 15) ++ (a :: t).drop (15 + 1) = a :: t := by
        rw [hsplit]; exact List.take_append_drop _ _
      have hsApp : IdSorted ((a :: t.take 15) ++ (a :: t).drop (15 + 1)) := by
        rw [happ]; exact hs
      have hKdel : (a :: t).filter
          (fun x => decide (x.id ∉ (a :: t.take 15).map (fun m => m.id))) =
          (a :: t).drop (15 + 1) := by
        conv_lhs => rw [← happ]
        exact filter_not_mem_ids_append _ _ hsApp
      have hKnext : listMessages (a :: t)
          (some (((a :: t.take 15).getLast (List.cons_ne_nil a (t.take 15))).id))
          blockFlushGroupSize = ((a :: t).drop (15 + 1)).take blockFlushGroupSize := by
        show ((a :: t).filter
            (fun m => decide (((a :: t.take 15).getLast (List.cons_ne_nil a (t.take 15))).id < m.id))).take
            blockFlushGroupSize = _
        congr 1
        conv_lhs => rw [← happ]
        exact filter_gt_getLast_append _ _ hsApp (List.cons_ne_nil a (t.take 15))
      rw [hKnext, hKdel]
      have hlen : ((a :: t).drop (15 + 1)).length ≤ k := by
        rw [List.length_drop]
        simp only [List.length_cons] at hl ⊢
        omega
      have hsDrop : IdSorted ((a :: t).drop (15 + 1)) :=
        List.Pairwise.sublist (List.drop_sublist _ _) hs
      exact ih ((a :: t).drop (15 + 1)) cafe hsDrop hlen

theorem Flush_unreachable (s : OutboxSvc) (hav : s.serviceAvailable = true)
    (hoff : s.online = false) (hnc : ∀ p, s.peersGet p = none)
    (q : List BlockMessage) (cafe : List (PeerId × Nat × List String))
    (hs : IdSorted q) :
    Flush s (q.length + 1) { queue := q, cafe := cafe } = some { queue := [], cafe := cafe } := by
  unfold Flush
  rw [hav]
  simp only [if_true]
  show batch s (q.length + 1) { queue := q, cafe := cafe }
    (listMessages q none blockFlushGroupSize) = some { queue := [], cafe := cafe }
  unfold listMessages
  exact batch_unreachable s hoff hnc q.length q cafe hs (Nat.le_refl _)

/-! ### Claim theorems -/

/-- A relay service whose inner envelope's signature does not verify:
pubkey.Verify reports (false, nil), the usual result for a wrong
signature, as when a byte of the signed message or signature was
flipped. -/
def relayBadSigSvc : RelaySvc :=
  { decrypt := fun _ => .ok "plain",
    unmarshalEnvelope := fun _ =>
      .ok { message := { messageType := .PING, payload := some "p" },
            pubkey := "pk", signature := "tampered" },
    marshalMessage := fun _ => .ok "ser",
    unmarshalPubKey := fun _ => .ok 5,
    verify := fun _ _ _ => .ok false,
    idFromPubKey := fun _ => .ok "sender" }

/-- C1: when the inner envelope's signature does not verify (Verify
returns false with a nil error), handleOfflineRelay does not dispatch the
inner message — the result is the same for every dispatch function — but,
contrary to the claim, it returns a nil error (success), because the
source's "if err != nil || !valid { return nil, err }" returns the nil
err.  The claim is right about the intent (handlers.go itself returns an
explicit "bad signature" error in the analogous thread-block check) and
the code is a slip. -/
theorem c1_bad_signature_silent_success (dispatch : PeerId → Message → HandlerRet) :
    handleOfflineRelay relayBadSigSvc dispatch "relayPeer"
      { messageType := .OFFLINE_RELAY, payload := some "cipher" } = (none, none) := rfl

/-- C7 counterexample: a PING message with a nil payload is not rejected:
handlePing performs no payload check and echoes the message as its reply
with no error, contradicting "every type - including PING - fails with
EmptyPayload on a nil payload". -/
theorem c7_counterexample :
    handlePing "peerA" { messageType := .PING, payload := none } =
      (some { messageType := .PING, payload := none }, none) := rfl

/-- C7 amended: every handled message type except PING rejects a nil
payload with the "payload is nil" error and no reply; PING echoes the
message (nil payload included) with no error. -/
theorem c7_amended :
    (∀ (pid : PeerId) (mt : MsgType),
      handlePing pid { messageType := mt, payload := none } =
        (some { messageType := mt, payload := none }, none)) ∧
    (∀ (s : ThreadSvc) (st : ThreadsState) (mt : MsgType),
      handleThreadBlock s st { messageType := mt, payload := none } =
        (.ret none (some "payload is nil"), st)) ∧
    (∀ (s : AckSvc) (ps : List Pointer) (pid : PeerId) (mt : MsgType),
      handleOfflineAck s ps pid { messageType := mt, payload := none } =
        ((none, some "payload is nil"), ps)) ∧
    (∀ (s : RelaySvc) (d : PeerId → Message → HandlerRet) (pid : PeerId) (mt : MsgType),
      handleOfflineRelay s d pid { messageType := mt, payload := none } =
        (none, some "payload is nil")) ∧
    (∀ (s : BlockSvc) (pid : PeerId) (mt : MsgType),
      handleBlock s pid { messageType := mt, payload := none } =
        (none, some "payload is nil")) ∧
    (∀ (s : StoreSvc) (pid : PeerId) (mt : MsgType),
      handleStore s pid { messageType := mt, payload := none } =
        (none, some "payload is nil")) ∧
    (∀ (u : Bytes → Except String String) (pid : PeerId) (mt : MsgType),
      handleError u pid { messageType := mt, payload := none } =
        (none, some "payload is nil")) :=
  ⟨fun _ _ => rfl, fun _ _ _ => rfl, fun _ _ _ _ => rfl, fun _ _ _ _ => rfl,
   fun _ _ _ => rfl, fun _ _ _ => rfl, fun _ _ _ => rfl⟩

/-- C10: on every control path, handleOfflineRelay returns a nil reply:
in particular the reply produced by the inner message's handler is
discarded, so a relayed Ping or STORE negotiation generates no response. -/
theorem c10_relay_discards_reply (s : RelaySvc) (dispatch : PeerId → Message → HandlerRet)
    (pid : PeerId) (pmes : Message) :
    (handleOfflineRelay s dispatch pid pmes).1 = none := by
  unfold handleOfflineRelay
  repeat' split
  all_goals simp

/-- A thread-block service whose payload deserializes to a block of an
unrecognized type (an enum code outside INVITE/PHOTO/COMMENT/LIKE, which
a proto3 enum field can carry); all codec oracles succeed. -/
def tbSvcUnknown : ThreadSvc :=
  { self := "self",
    unmarshalSigned := fun _ =>
      .ok { id := "blk", threadId := "th1", threadName := "name",
            issuerPubKey := "ipk", data := "data", signature := "sig" },
    unmarshalBlock := fun _ => .ok { type := .UNKNOWN 9, target := "t", targetKey := "k" },
    decrypt := fun _ => .ok "skb",
    unmarshalPrivKey := fun _ => .ok 1,
    verifyWith := fun _ _ _ => .ok true,
    newThread := fun n k => .ok { id := "tid", name := n, sk := k },
    unmarshalPubKey := fun _ => .ok 2,
    pubKeyBytes := fun _ => .ok "pkb",
    idFromPubKey := fun _ => .ok "peerX",
    freshRow := "row",
    peersAddErr := fun _ => none,
    handleBlockErr := fun _ _ => none }

/-- C3 counterexample: a thread block whose type is outside
INVITE/PHOTO/COMMENT/LIKE, on a thread that is absent locally, reaches
the final thrd.HandleBlock call with a nil thread: the Go switch has no
default case, so handleThreadBlock dereferences the nil pointer,
contradicting "the call never dereferences a nil thread - in particular
for blocks whose type is outside INVITE/PHOTO/COMMENT/LIKE while the
thread is absent locally". -/
theorem c3_counterexample :
    (handleThreadBlock tbSvcUnknown { threads := [], peers := [] }
      { messageType := .THREAD_BLOCK, payload := some "pl" }).1 = TBOutcome.nilPanic := rfl

/-- C3 amended: for blocks of the four declared types
(INVITE/PHOTO/COMMENT/LIKE), whenever control reaches the final
Thread.HandleBlock call the resolved thread is non-nil, so those types
never dereference a nil thread; the unguarded nil dereference exists only
for types outside the four while the thread is absent. -/
theorem c3_amended (s : ThreadSvc) (st : ThreadsState) (pmes : Message) (pl : Bytes)
    (signed : SignedThreadBlock) (block : ThreadBlock)
    (hpl : pmes.payload = some pl)
    (hsig : s.unmarshalSigned pl = .ok signed)
    (hblk : s.unmarshalBlock signed.data = .ok block)
    (hty : block.type = .INVITE ∨ block.type = .PHOTO ∨
           block.type = .COMMENT ∨ block.type = .LIKE) :
    (handleThreadBlock s st pmes).1 ≠ TBOutcome.nilPanic := by
  unfold handleThreadBlock
  rcases hty with h | h | h | h
  all_goals simp only [hpl, hsig, hblk, h]
  all_goals repeat' split
  all_goals simp

/-- C3 amended witness: a PHOTO block on an existing thread does not hit
the nil dereference. -/
theorem c3_amended_witness :
    (handleThreadBlock
      { tbSvcUnknown with
          unmarshalBlock := fun _ => .ok { type := .PHOTO, target := "t", targetKey := "k" } }
      { threads := [{ id := "th1", name := "n", sk := 1 }], peers := [] }
      { messageType := .THREAD_BLOCK, payload := some "pl" }).1 ≠ TBOutcome.nilPanic :=
  c3_amended
    { tbSvcUnknown with
        unmarshalBlock := fun _ => .ok { type := .PHOTO, target := "t", targetKey := "k" } }
    { threads := [{ id := "th1", name := "n", sk := 1 }], peers := [] }
    { messageType := .THREAD_BLOCK, payload := some "pl" }
    "pl"
    { id := "blk", threadId := "th1", threadName := "name",
      issuerPubKey := "ipk", data := "data", signature := "sig" }
    { type := .PHOTO, target := "t", targetKey := "k" }
    rfl rfl rfl (Or.inr (Or.inl rfl))

/-- C4: INVITE admission guards: when the invited thread id already
resolves locally, handleThreadBlock fails with "thread exists" and
returns the state unchanged (no overwrite of thread or peer records);
when the thread is absent but the embedded target is not this peer's own
identifier, it fails with "invalid invite target", also leaving the state
unchanged. -/
theorem c4_invite_guards (s : ThreadSvc) (st : ThreadsState) (pmes : Message) (pl : Bytes)
    (signed : SignedThreadBlock) (block : ThreadBlock)
    (hpl : pmes.payload = some pl)
    (hsig : s.unmarshalSigned pl = .ok signed)
    (hblk : s.unmarshalBlock signed.data = .ok block)
    (hty : block.type = .INVITE) :
    (∀ t, getThread st signed.threadId = some t →
      handleThreadBlock s st pmes = (.ret none (some "thread exists"), st)) ∧
    (getThread st signed.threadId = none → block.target ≠ s.self →
      handleThreadBlock s st pmes = (.ret none (some "invalid invite target"), st)) := by
  constructor
  · intro t ht
    simp only [handleThreadBlock, hpl, hsig, hblk, hty, ht]
  · intro ht htar
    simp only [handleThreadBlock, hpl, hsig, hblk, hty, ht, if_pos htar]

/-- C4 witness at concrete inputs: a replayed INVITE for a tracked thread
fails with "thread exists"; an INVITE targeting another peer fails with
"invalid invite target"; both leave the state unchanged. -/
theorem c4_witness :
    handleThreadBlock
      { tbSvcUnknown with
          unmarshalBlock := fun _ => .ok { type := .INVITE, target := "self", targetKey := "k" } }
      { threads := [{ id := "th1", name := "n", sk := 1 }], peers := [] }
      { messageType := .THREAD_BLOCK, payload := some "pl" } =
      (.ret none (some "thread exists"),
        { threads := [{ id := "th1", name := "n", sk := 1 }], peers := [] }) ∧
    handleThreadBlock
      { tbSvcUnknown with
          unmarshalBlock := fun _ => .ok { type := .INVITE, target := "other", targetKey := "k" } }
      { threads := [], peers := [] }
      { messageType := .THREAD_BLOCK, payload := some "pl" } =
      (.ret none (some "invalid invite target"), { threads := [], peers := [] }) :=
  ⟨(c4_invite_guards
      { tbSvcUnknown with
          unmarshalBlock := fun _ => .ok { type := .INVITE, target := "self", targetKey := "k" } }
      { threads := [{ id := "th1", name := "n", sk := 1 }], peers := [] }
      { messageType := .THREAD_BLOCK, payload := some "pl" } "pl"
      { id := "blk", threadId := "th1", threadName := "name",
        issuerPubKey := "ipk", data := "data", signature := "sig" }
      { type := .INVITE, target := "self", targetKey := "k" }
      rfl rfl rfl rfl).1 { id := "th1", name := "n", sk := 1 } rfl,
   (c4_invite_guards
      { tbSvcUnknown with
          unmarshalBlock := fun _ => .ok { type := .INVITE, target := "other", targetKey := "k" } }
      { threads := [], peers := [] }
      { messageType := .THREAD_BLOCK, payload := some "pl" } "pl"
      { id := "blk", threadId := "th1", threadName := "name",
        issuerPubKey := "ipk", data := "data", signature := "sig" }
      { type := .INVITE, target := "other", targetKey := "k" }
      rfl rfl rfl rfl).2 rfl (by decide)⟩

/-- C6: PHOTO block guards: a PHOTO block whose thread id does not
resolve locally fails with "thread not found" (never a silent no-op, and
the state is unchanged); when the thread exists, the signature is checked
with the thread's own key, and any verification outcome other than a
clean true - verification false or an erroring Verify call - fails with
"bad signature". -/
theorem c6_photo_guards (s : ThreadSvc) (st : ThreadsState) (pmes : Message) (pl : Bytes)
    (signed : SignedThreadBlock) (block : ThreadBlock)
    (hpl : pmes.payload = some pl)
    (hsig : s.unmarshalSigned pl = .ok signed)
    (hblk : s.unmarshalBlock signed.data = .ok block)
    (hty : block.type = .PHOTO) :
    (getThread st signed.threadId = none →
      handleThreadBlock s st pmes = (.ret none (some "thread not found"), st)) ∧
    (∀ t, getThread st signed.threadId = some t →
      s.verifyWith t.sk signed.data signed.signature ≠ .ok true →
      handleThreadBlock s st pmes = (.ret none (some "bad signature"), st)) := by
  constructor
  · intro ht
    simp only [handleThreadBlock, hpl, hsig, hblk, hty, ht]
  · intro t ht hv
    simp only [handleThreadBlock, hpl, hsig, hblk, hty, ht]
    cases hvv : s.verifyWith t.sk signed.data signed.signature with
    | ok b =>
      cases b with
      | false => rfl
      | true => exact absurd hvv hv
    | err e => rfl

/-- C6 witness at concrete inputs: a PHOTO on an unknown thread yields
"thread not found"; a PHOTO whose signature fails the thread-key check
yields "bad signature". -/
theorem c6_witness :
    handleThreadBlock
      { tbSvcUnknown with
          unmarshalBlock := fun _ => .ok { type := .PHOTO, target := "t", targetKey := "k" } }
      { threads := [], peers := [] }
      { messageType := .THREAD_BLOCK, payload := some "pl" } =
      (.ret none (some "thread not found"), { threads := [], peers := [] }) ∧
    handleThreadBlock
      { tbSvcUnknown with
          unmarshalBlock := fun _ => .ok { type := .PHOTO, target := "t", targetKey := "k" },
          verifyWith := fun _ _ _ => .ok false }
      { threads := [{ id := "th1", name := "n", sk := 1 }], peers := [] }
      { messageType := .THREAD_BLOCK, payload := some "pl" } =
      (.ret none (some "bad signature"),
        { threads := [{ id := "th1", name := "n", sk := 1 }], peers := [] }) :=
  ⟨(c6_photo_guards
      { tbSvcUnknown with
          unmarshalBlock := fun _ => .ok { type := .PHOTO, target := "t", targetKey := "k" } }
      { threads := [], peers := [] }
      { messageType := .THREAD_BLOCK, payload := some "pl" } "pl"
      { id := "blk", threadId := "th1", threadName := "name",
        issuerPubKey := "ipk", data := "data", signature := "sig" }
      { type := .PHOTO, target := "t", targetKey := "k" }
      rfl rfl rfl rfl).1 rfl,
   (c6_photo_guards
      { tbSvcUnknown with
          unmarshalBlock := fun _ => .ok { type := .PHOTO, target := "t", targetKey := "k" },
          verifyWith := fun _ _ _ => .ok false }
      { threads := [{ id := "th1", name := "n", sk := 1 }], peers := [] }
      { messageType := .THREAD_BLOCK, payload := some "pl" } "pl"
      { id := "blk", threadId := "th1", threadName := "name",
        issuerPubKey := "ipk", data := "data", signature := "sig" }
      { type := .PHOTO, target := "t", targetKey := "k" }
      rfl rfl rfl rfl).2 { id := "th1", name := "n", sk := 1 } rfl (by decide)⟩

/-- C5: OfflineAck pointer retraction: with a well-formed peer-id payload
and a pointer found under the sender's key, the pointer is deleted
exactly when its cancelId equals the authenticated sender; any other
cancelId - a different peer or nil - yields the unauthorized error and
leaves the pointer store unchanged.  The third conjunct states that the
deletion removes precisely the entries keyed by the sender. -/
theorem c5_offline_ack (s : AckSvc) (ps : List Pointer) (pid : PeerId) (pmes : Message)
    (pl : Bytes) (x : PeerId) (ptr : Pointer)
    (hpl : pmes.payload = some pl)
    (hdec : s.decodePeerId pl = .ok x)
    (hget : pointersGet ps pid = .ok ptr) :
    (ptr.cancelId = some pid →
      handleOfflineAck s ps pid pmes = ((none, none), pointersDelete ps pid)) ∧
    (ptr.cancelId ≠ some pid →
      handleOfflineAck s ps pid pmes =
        ((none, some "peer is not authorized to delete pointer"), ps)) ∧
    (∀ p ∈ pointersDelete ps pid, p.key ≠ pid) := by
  refine ⟨?_, ?_, ?_⟩
  · intro hc
    simp only [handleOfflineAck, hpl, hdec, hget, hc]
    simp
  · intro hc
    simp only [handleOfflineAck, hpl, hdec, hget]
    cases hcc : ptr.cancelId with
    | none => rfl
    | some c =>
      have hne : ¬ c = pid := fun he => hc (by rw [hcc, he])
      simp [hne]
  · intro p hp
    have := List.mem_filter.mp hp
    simpa using this.2

/-- C5 witness at concrete inputs: the authorized canceller's ack deletes
the pointer; another sender gets the unauthorized error and the store is
unchanged. -/
theorem c5_witness :
    handleOfflineAck { decodePeerId := fun b => .ok b }
      [{ key := "alice", cancelId := some "alice" }] "alice"
      { messageType := .OFFLINE_ACK, payload := some "alice" } =
      ((none, none), []) ∧
    handleOfflineAck { decodePeerId := fun b => .ok b }
      [{ key := "mallory", cancelId := some "alice" }] "mallory"
      { messageType := .OFFLINE_ACK, payload := some "mallory" } =
      ((none, some "peer is not authorized to delete pointer"),
        [{ key := "mallory", cancelId := some "alice" }]) :=
  ⟨(c5_offline_ack { decodePeerId := fun b => .ok b }
      [{ key := "alice", cancelId := some "alice" }] "alice"
      { messageType := .OFFLINE_ACK, payload := some "alice" } "alice" "alice"
      { key := "alice", cancelId := some "alice" } rfl rfl rfl).1 rfl,
   (c5_offline_ack { decodePeerId := fun b => .ok b }
      [{ key := "mallory", cancelId := some "alice" }] "mallory"
      { messageType := .OFFLINE_ACK, payload := some "mallory" } "mallory" "mallory"
      { key := "mallory", cancelId := some "alice" } rfl rfl rfl).2.1 (by decide)⟩

/-- C8: store negotiation: for a well-formed CidList payload whose ids
are canonically encoded, handleStore replies with a STORE message whose
cid list is exactly the input ids not present in the local block store,
in the input's order, with individually malformed ids skipped; a payload
that fails to unmarshal as a whole produces an Error-typed reply. -/
theorem c8_store_negotiation :
    (∀ (s : StoreSvc) (pid : PeerId) (pmes : Message) (pl : Bytes)
        (cids : List String) (out : Bytes),
      pmes.payload = some pl →
      s.unmarshalCidList pl = .ok cids →
      (∀ c ∈ cids, (match s.cidDecode c with
        | .ok d => s.cidString d == c
        | .error _ => true) = true) →
      s.marshalCidList (storeNeed s cids) = .ok out →
      handleStore s pid pmes =
        (some { messageType := .STORE, payload := some out }, none) ∧
      storeNeed s cids = specStoreReply (cidDecodable s) (cidPresent s) cids) ∧
    (∀ (s : StoreSvc) (pid : PeerId) (pmes : Message) (pl : Bytes) (e : String),
      pmes.payload = some pl →
      s.unmarshalCidList pl = .error e →
      handleStore s pid pmes =
        (some (errorResponse "could not unmarshall message"), some e)) := by
  constructor
  · intro s pid pmes pl cids out hpl hlist hcanon hmarshal
    constructor
    · simp only [handleStore, hpl, hlist, hmarshal]
    · exact storeNeed_spec s cids hcanon
  · intro s pid pmes pl e hpl hlist
    simp only [handleStore, hpl, hlist]

/-- The spec's scenario: ids A, B, C where only B is present locally. -/
def storeSvcABC : StoreSvc :=
  { unmarshalCidList := fun _ => .ok ["A", "B", "C"],
    cidDecode := fun c =>
      if c = "A" then .ok 0
      else if c = "B" then .ok 1
      else if c = "C" then .ok 2
      else .error "malformed cid",
    cidString := fun d =>
      if d = 0 then "A" else if d = 1 then "B" else if d = 2 then "C" else "",
    hasBlock := fun d => .ok (decide (d = 1)),
    marshalCidList := fun l => .ok (String.intercalate "," l) }

/-- C8 witness: input [A, B, C] with only B present yields the STORE
reply [A, C] (marshalled as "A,C"), matching the spec-side filter. -/
theorem c8_witness :
    handleStore storeSvcABC "p" { messageType := .STORE, payload := some "pl" } =
      (some { messageType := .STORE, payload := some "A,C" }, none) ∧
    storeNeed storeSvcABC ["A", "B", "C"] =
      specStoreReply (cidDecodable storeSvcABC) (cidPresent storeSvcABC) ["A", "B", "C"] :=
  c8_store_negotiation.1 storeSvcABC "p"
    { messageType := .STORE, payload := some "pl" } "pl" ["A", "B", "C"] "A,C"
    rfl rfl (by decide) rfl

/-- An outbox world whose service is available but offline, with no
recorded contact (hence no relay inboxes) for any peer. -/
def outboxSvcOffline : OutboxSvc :=
  { serviceAvailable := true,
    online := false,
    swarmConnected := fun _ => .ok false,
    sendMessageErr := fun _ _ => none,
    peersGet := fun _ => none,
    addForInboxErr := fun _ _ _ => none }

/-- C2 counterexample: a queued message for peer P2, unreachable (service
offline) and with no known relay inbox, is DELETED by Flush - the final
queue is empty and nothing was handed to the relay outbox - contradicting
"a Flush leaves that message in the durable queue (it is not deleted), so
it is retried on a later flush". -/
theorem c2_counterexample :
    Flush outboxSvcOffline 2
      { queue := [{ id := 1, peer := "P2", env := 0 }], cafe := [] } =
      some { queue := [], cafe := [] } := rfl

/-- C2 amended: for a destination that is unreachable (service offline)
with no known relay inbox addresses, handle returns success without any
relay handoff and without touching state, so a Flush deletes such
messages from the durable queue instead of leaving them for retry; a
whole queue of such messages is emptied with no relay handoffs. -/
theorem c2_amended_unreachable_deleted :
    (∀ (s : OutboxSvc) (st : OutboxState) (p : PeerId) (m : BlockMessage),
      s.online = false →
      (s.peersGet p = none ∨ ∃ c, s.peersGet p = some c ∧ c.inboxes = []) →
      outboxHandle s st p m = (none, st)) ∧
    (∀ (s : OutboxSvc) (q : List BlockMessage) (cafe : List (PeerId × Nat × List String)),
      s.serviceAvailable = true → s.online = false → (∀ p, s.peersGet p = none) →
      IdSorted q →
      Flush s (q.length + 1) { queue := q, cafe := cafe } =
        some { queue := [], cafe := cafe }) :=
  ⟨outboxHandle_unreachable_no_inbox,
   fun s q cafe hav hoff hnc hs => Flush_unreachable s hav hoff hnc q cafe hs⟩

/-- C2 amended witness at concrete inputs. -/
theorem c2_amended_witness :
    outboxHandle outboxSvcOffline { queue := [], cafe := [] } "P2"
      { id := 1, peer := "P2", env := 0 } = (none, { queue := [], cafe := [] }) ∧
    Flush outboxSvcOffline 3
      { queue := [{ id := 1, peer := "P2", env := 0 }, { id := 2, peer := "P3", env := 0 }],
        cafe := [] } = some { queue := [], cafe := [] } :=
  ⟨c2_amended_unreachable_deleted.1 outboxSvcOffline { queue := [], cafe := [] } "P2"
      { id := 1, peer := "P2", env := 0 } rfl (Or.inl rfl),
   c2_amended_unreachable_deleted.2 outboxSvcOffline
      [{ id := 1, peer := "P2", env := 0 }, { id := 2, peer := "P3", env := 0 }] []
      rfl rfl (fun _ => rfl) (by unfold IdSorted; decide)⟩

/-- C9: Flush terminates on every finite queue: the batch recursion loads
pages of at most blockFlushGroupSize messages in id order (each page
starting after the last id of the previous one), and a fuel linear in the
queue length always reaches the empty page that stops it. -/
theorem c9_flush_terminates (s : OutboxSvc) (st : OutboxState) (hs : IdSorted st.queue) :
    (Flush s (st.queue.length + 2) st).isSome ∧
    (∀ (q : List BlockMessage) (o : Option Nat),
      (listMessages q o blockFlushGroupSize).length ≤ blockFlushGroupSize) := by
  refine ⟨Flush_total s st hs, ?_⟩
  intro q o
  cases o <;> simp [listMessages, blockFlushGroupSize]

/-- C9 witness at a concrete queue. -/
theorem c9_witness :
    (Flush outboxSvcOffline
      ((OutboxState.mk [{ id := 1, peer := "P1", env := 0 }, { id := 2, peer := "P2", env := 0 }]
        []).queue.length + 2)
      (OutboxState.mk [{ id := 1, peer := "P1", env := 0 }, { id := 2, peer := "P2", env := 0 }]
        [])).isSome ∧
    (∀ (q : List BlockMessage) (o : Option Nat),
      (listMessages q o blockFlushGroupSize).length ≤ blockFlushGroupSize) :=
  c9_flush_terminates outboxSvcOffline
    (OutboxState.mk [{ id := 1, peer := "P1", env := 0 }, { id := 2, peer := "P2", env := 0 }] [])
    (by unfold IdSorted; decide)

end Textile
